import Mathlib

/-!
Shallow embedding of the terminal-emulator core of the Rin repository
(`src/core/cell.rs`, `src/core/grid.rs`, `src/core/buffer.rs`,
`src/parser/ansi.rs`, `src/lib.rs`) together with theorems settling the
frozen specification claims.

Conventions of the embedding:
* Rust `usize` values are `Nat`; places where the source can underflow a
  `usize` subtraction (a panic under the debug profile) are modelled by
  returning `none`.
* `u8` bytes are `Nat` (all byte arithmetic in the source stays below 256).
* Rust `&mut self` methods become functions `State → State` (or
  `State → Option State` where the source can panic).
* `anyhow::Result<()>` becomes `Except String Unit`.
* Rust `Vec`/`VecDeque` become `List` (push_back = append at the right,
  pop_front = drop at the left).
-/

namespace Rin

/-- `Color` from `src/core/cell.rs`: an RGB triple of `u8` channels. -/
structure Color where
  r : Nat
  g : Nat
  b : Nat
deriving DecidableEq, Repr

def Color.new (r g b : Nat) : Color := ⟨r, g, b⟩

def Color.BLACK : Color := ⟨0, 0, 0⟩

def Color.WHITE : Color := ⟨255, 255, 255⟩

/-- `UnderlineStyle` from `src/core/cell.rs`. -/
inductive UnderlineStyle where
  | none
  | single
  | double
  | curly
  | dotted
  | dashed
deriving DecidableEq, Repr

/-- `CellStyle` from `src/core/cell.rs`. -/
structure CellStyle where
  fg : Color
  bg : Color
  bold : Bool
  italic : Bool
  underline : UnderlineStyle
  reverse : Bool
  strikethrough : Bool
  dim : Bool
  hidden : Bool
deriving DecidableEq, Repr

/-- `CellStyle::default()`: white on black, all attributes clear. -/
def CellStyle.default : CellStyle :=
  { fg := Color.WHITE
    bg := Color.BLACK
    bold := false
    italic := false
    underline := UnderlineStyle.none
    reverse := false
    strikethrough := false
    dim := false
    hidden := false }

/-- `Hyperlink` from `src/core/cell.rs`; the `Arc` sharing is erased,
equality is componentwise on `{id, uri}` as in the source `PartialEq`. -/
structure Hyperlink where
  id : String
  uri : String
deriving DecidableEq, Repr

/-- `Cell` from `src/core/cell.rs`. -/
structure Cell where
  character : Char
  style : CellStyle
  hyperlink : Option Hyperlink
  zerowidth : List Char
deriving DecidableEq, Repr

/-- `Cell::default()`: a space with the default style. -/
def Cell.default : Cell :=
  { character := ' '
    style := CellStyle.default
    hyperlink := none
    zerowidth := [] }

/-- `Grid` from `src/core/grid.rs`: row-major cells plus per-row dirty flags. -/
structure Grid where
  cells : List Cell
  dirty_rows : List Bool
  width : Nat
  height : Nat
deriving DecidableEq, Repr

namespace Grid

/-- `Grid::new`. -/
def new (width height : Nat) : Grid :=
  { cells := List.replicate (width * height) Cell.default
    dirty_rows := List.replicate height true
    width := width
    height := height }

/-- `Grid::get`: `None` on out-of-bounds coordinates, otherwise the cell at
row-major index `y * width + x`. -/
def get (g : Grid) (x y : Nat) : Option Cell :=
  if g.width ≤ x ∨ g.height ≤ y then none
  else g.cells[y * g.width + x]?

/-- `Grid::set`: bails out with an error on out-of-bounds coordinates
(leaving the grid untouched), otherwise writes the cell and marks the row
dirty.  The pair returns the post-state together with the `Result`. -/
def set (g : Grid) (x y : Nat) (cell : Cell) : Grid × Except String Unit :=
  if g.width ≤ x ∨ g.height ≤ y then
    (g, Except.error "Position out of bounds")
  else
    ({ g with
        cells := g.cells.set (y * g.width + x) cell
        dirty_rows := g.dirty_rows.set y true },
      Except.ok ())

/-- The `let _ = self.grid.set(..)` pattern of `buffer.rs`: perform the set,
discard the `Result`. -/
def setIgnore (g : Grid) (x y : Nat) (cell : Cell) : Grid :=
  (g.set x y cell).1

/-- `Grid::get_mut` as used by `TerminalBuffer::write_char`: on in-bounds
coordinates the row is marked dirty and the cell's character and style are
overwritten (hyperlink and zerowidth data of the old cell are kept). -/
def writeCharAt (g : Grid) (x y : Nat) (ch : Char) (st : CellStyle) : Grid :=
  if g.width ≤ x ∨ g.height ≤ y then g
  else
    match g.cells[y * g.width + x]? with
    | some old =>
        { g with
            cells := g.cells.set (y * g.width + x)
              { old with character := ch, style := st }
            dirty_rows := g.dirty_rows.set y true }
    | none => { g with dirty_rows := g.dirty_rows.set y true }

/-- `Grid::clear`: fill all cells with defaults, mark every row dirty. -/
def clear (g : Grid) : Grid :=
  { g with
      cells := List.replicate g.cells.length Cell.default
      dirty_rows := List.replicate g.dirty_rows.length true }

/-- `Grid::row`: the `width`-cell slice starting at `y * width`. -/
def row (g : Grid) (y : Nat) : Option (List Cell) :=
  if g.height ≤ y then none
  else some ((g.cells.drop (y * g.width)).take g.width)

/-- `Grid::resize`: fresh default cells, copy of the intersecting top-left
rectangle, all rows dirty.  `self.cells[old_idx]` is in bounds under the
representation invariant; `getD` mirrors that access. -/
def resize (g : Grid) (new_width new_height : Nat) : Grid :=
  let copy_width := min g.width new_width
  let copy_height := min g.height new_height
  let base := List.replicate (new_width * new_height) Cell.default
  let new_cells :=
    ((List.range copy_height).flatMap fun y =>
      (List.range copy_width).map fun x => (x, y)).foldl
      (fun cs p =>
        cs.set (p.2 * new_width + p.1) (g.cells.getD (p.2 * g.width + p.1) Cell.default))
      base
  { cells := new_cells
    dirty_rows := List.replicate new_height true
    width := new_width
    height := new_height }

/-- Representation invariant maintained by every `Grid` the source
constructs: the cell vector has exactly `width * height` entries. -/
def WF (g : Grid) : Prop := g.cells.length = g.width * g.height

/-- Folding `setIgnore .. Cell.default` over a list of positions: the shape
of the erase/clear loops in `buffer.rs`. -/
def clearFold (g : Grid) (ps : List (Nat × Nat)) : Grid :=
  ps.foldl (fun g p => g.setIgnore p.1 p.2 Cell.default) g

end Grid

/-- `CursorStyle` from `src/parser/ansi.rs`. -/
inductive CursorStyle where
  | blinkBlock
  | steadyBlock
  | blinkUnderline
  | steadyUnderline
  | blinkBar
  | steadyBar
deriving DecidableEq, Repr

/-- `Charset` from `src/parser/ansi.rs`. -/
inductive Charset where
  | ascii
  | lineDrawing
deriving DecidableEq, Repr

/-- `MouseMode` from `src/parser/ansi.rs`. -/
inductive MouseMode where
  | none
  | reportClick
  | reportMotion
  | reportAll
deriving DecidableEq, Repr

/-- The `Command` enum from `src/parser/ansi.rs` (complete). -/
inductive Command where
  | Print (c : Char)
  | Execute (byte : Nat)
  | MoveCursor (x y : Nat)
  | MoveCursorRelative (dx dy : Int)
  | ClearScreen
  | ClearLine
  | SetStyle (style : CellStyle)
  | SetForeground (color : Color)
  | SetBackground (color : Color)
  | SaveCursor
  | RestoreCursor
  | ScrollUp (n : Nat)
  | ScrollDown (n : Nat)
  | InsertLine (n : Nat)
  | DeleteLine (n : Nat)
  | EraseChars (n : Nat)
  | EraseDisplay (mode : Nat)
  | EraseLine (mode : Nat)
  | Reset
  | EnterAlternateScreen
  | ExitAlternateScreen
  | SetTitle (title : String)
  | SetCursorStyle (style : CursorStyle)
  | SetBracketedPaste (enabled : Bool)
  | SetCharset (charset : Charset)
  | SetTabStop
  | ClearTabStop
  | ClearAllTabStops
  | DeviceAttributeQuery
  | ShowCursor
  | HideCursor
  | SetHyperlink (link : Option Hyperlink)
  | SetScrollRegion (top bottom : Nat)
  | SetMouseMode (mode : MouseMode)
  | InsertChars (n : Nat)
  | DeleteChars (n : Nat)
  | Bell
deriving DecidableEq, Repr

/-- Rust's `as i32` truncating cast from `usize` (two's complement). -/
def castI32 (n : Nat) : Int :=
  let m : Nat := n % 2 ^ 32
  if m < 2 ^ 31 then (m : Int) else (m : Int) - 2 ^ 32

/-- Rust's `as usize` wrapping cast from a (possibly negative) `i32`/`i64`
value. -/
def castUsize (i : Int) : Nat := (i % 2 ^ 64).toNat

/-- `AlternateState` from `src/core/buffer.rs`. -/
structure AlternateState where
  grid : Grid
  cursor_x : Nat
  cursor_y : Nat
  current_style : CellStyle
  scrollback : List (List Cell)
deriving DecidableEq, Repr

/-- `DEFAULT_SCROLLBACK_LIMIT` from `src/core/buffer.rs`. -/
def DEFAULT_SCROLLBACK_LIMIT : Nat := 10000

/-- `TerminalBuffer` from `src/core/buffer.rs`. -/
structure TerminalBuffer where
  grid : Grid
  cursor_x : Nat
  cursor_y : Nat
  current_style : CellStyle
  saved_cursor : Option (Nat × Nat × CellStyle)
  scrollback : List (List Cell)
  scrollback_limit : Nat
  scroll_offset : Nat
  alternate_state : Option AlternateState
  cursor_style : CursorStyle
  bracketed_paste : Bool
  charset : Charset
  tab_stops : List Bool
  pending_responses : List (List Nat)
deriving DecidableEq, Repr

namespace TerminalBuffer

/-- `TerminalBuffer::new`: default tab stops at the multiples of 8 from 8 on
(`for i in (8..width).step_by(8)`). -/
def new (width height : Nat) : TerminalBuffer :=
  { grid := Grid.new width height
    cursor_x := 0
    cursor_y := 0
    current_style := CellStyle.default
    saved_cursor := none
    scrollback := []
    scrollback_limit := DEFAULT_SCROLLBACK_LIMIT
    scroll_offset := 0
    alternate_state := none
    cursor_style := CursorStyle.blinkBlock
    bracketed_paste := false
    charset := Charset.ascii
    tab_stops := (List.range width).map fun i => decide (8 ≤ i ∧ i % 8 = 0)
    pending_responses := [] }

/-- `TerminalBuffer::scrollback_len`. -/
def scrollback_len (b : TerminalBuffer) : Nat := b.scrollback.length

/-- `TerminalBuffer::drain_responses` (`std::mem::take`): returns the queued
responses and the buffer with an emptied queue. -/
def drain_responses (b : TerminalBuffer) : List (List Nat) × TerminalBuffer :=
  (b.pending_responses, { b with pending_responses := [] })

/-- `TerminalBuffer::set_scrollback_limit`: store the limit, then pop from the
front while over it (equivalently, drop `len - limit` entries). -/
def set_scrollback_limit (b : TerminalBuffer) (limit : Nat) : TerminalBuffer :=
  { b with
      scrollback_limit := limit
      scrollback := b.scrollback.drop (b.scrollback.length - limit) }

/-- `TerminalBuffer::translate_char`: line-drawing substitution table. -/
def translate_char (b : TerminalBuffer) (c : Char) : Char :=
  if b.charset = Charset.lineDrawing then
    if c = 'j' then '┘'
    else if c = 'k' then '┐'
    else if c = 'l' then '┌'
    else if c = 'm' then '└'
    else if c = 'n' then '┼'
    else if c = 'q' then '─'
    else if c = 't' then '├'
    else if c = 'u' then '┤'
    else if c = 'v' then '┴'
    else if c = 'w' then '┬'
    else if c = 'x' then '│'
    else if c = 'a' then '▒'
    else c
  else c

/-- `TerminalBuffer::scroll_up(n)`: push the top `min n height` rows onto
scrollback, trim the scrollback to the limit from the front, shift rows
`n..height` up by `n` (reads see the pre-scroll grid: row `y` is read before
it is overwritten at iteration `y + n`), blank the bottom rows, and
saturate-subtract `n` from `cursor_y`. -/
def scroll_up (b : TerminalBuffer) (n : Nat) : TerminalBuffer :=
  let w := b.grid.width
  let h := b.grid.height
  let sb1 := b.scrollback ++ (List.range (min n h)).filterMap fun y => b.grid.row y
  let sb2 := sb1.drop (sb1.length - b.scrollback_limit)
  let shifted :=
    ((List.range' n (h - n)).flatMap fun y =>
      (List.range w).map fun x => (x, y)).foldl
      (fun g p =>
        match b.grid.get p.1 p.2 with
        | some cell => g.setIgnore p.1 (p.2 - n) cell
        | none => g)
      b.grid
  let blanked :=
    ((List.range' (h - n) (h - (h - n))).flatMap fun y =>
      (List.range w).map fun x => (x, y)).foldl
      (fun g p => g.setIgnore p.1 p.2 Cell.default)
      shifted
  { b with
      grid := blanked
      scrollback := sb2
      cursor_y := b.cursor_y - n }

/-- `TerminalBuffer::scroll_down(n)`: `for y in (0..(height - n)).rev()`
shifts rows down by `n` (reads see the pre-scroll grid: row `y` is read
before it is overwritten at the later iteration `y - n`), then the top
`min n height` rows are blanked.  Only called with `n ≤ height`; the
`height - n` underflow for `n > height` is handled by the caller
(`execute_command` returns `none` there). -/
def scroll_down (b : TerminalBuffer) (n : Nat) : TerminalBuffer :=
  let w := b.grid.width
  let h := b.grid.height
  let shifted :=
    ((List.range (h - n)).reverse.flatMap fun y =>
      (List.range w).map fun x => (x, y)).foldl
      (fun g p =>
        match b.grid.get p.1 p.2 with
        | some cell => g.setIgnore p.1 (p.2 + n) cell
        | none => g)
      b.grid
  let blanked :=
    ((List.range (min n h)).flatMap fun y =>
      (List.range w).map fun x => (x, y)).foldl
      (fun g p => g.setIgnore p.1 p.2 Cell.default)
      shifted
  { b with grid := blanked }

/-- The shared line-feed code of the `Print('\n')` and `Execute(b'\n')` arms
of `execute_command`. -/
def lineFeed (b : TerminalBuffer) : TerminalBuffer :=
  let b := { b with cursor_x := 0, cursor_y := b.cursor_y + 1 }
  if b.grid.height ≤ b.cursor_y then b.scroll_up 1 else b

/-- `TerminalBuffer::write_char`: translate, overwrite character and style at
the cursor, advance with eager wrap, scroll up by one on leaving the bottom. -/
def write_char (b : TerminalBuffer) (c : Char) : TerminalBuffer :=
  let translated := b.translate_char c
  let b := { b with
    grid := b.grid.writeCharAt b.cursor_x b.cursor_y translated b.current_style }
  let b := { b with cursor_x := b.cursor_x + 1 }
  if b.grid.width ≤ b.cursor_x then
    let b := { b with cursor_x := 0, cursor_y := b.cursor_y + 1 }
    if b.grid.height ≤ b.cursor_y then b.scroll_up 1 else b
  else b

/-- `TerminalBuffer::advance_to_next_tab_stop`: first column after the cursor
whose tab-stop flag is set (`tab_stops.get(x).copied().unwrap_or(false)`),
else `width - 1` (saturating). -/
def advance_to_next_tab_stop (b : TerminalBuffer) : TerminalBuffer :=
  let w := b.grid.width
  match (List.range' (b.cursor_x + 1) (w - (b.cursor_x + 1))).find?
      (fun x => b.tab_stops.getD x false) with
  | some x => { b with cursor_x := x }
  | none => { b with cursor_x := w - 1 }

/-- `TerminalBuffer::enter_alternate_screen`: no-op when already alternate;
otherwise snapshot grid/cursor/style/scrollback and start fresh. -/
def enter_alternate_screen (b : TerminalBuffer) : TerminalBuffer :=
  match b.alternate_state with
  | some _ => b
  | none =>
      { b with
          grid := Grid.new b.grid.width b.grid.height
          alternate_state := some
            { grid := b.grid
              cursor_x := b.cursor_x
              cursor_y := b.cursor_y
              current_style := b.current_style
              scrollback := b.scrollback }
          scrollback := []
          cursor_x := 0
          cursor_y := 0
          current_style := CellStyle.default }

/-- `TerminalBuffer::exit_alternate_screen`: restore the snapshot when there
is one, else do nothing. -/
def exit_alternate_screen (b : TerminalBuffer) : TerminalBuffer :=
  match b.alternate_state with
  | some state =>
      { b with
          grid := state.grid
          cursor_x := state.cursor_x
          cursor_y := state.cursor_y
          current_style := state.current_style
          scrollback := state.scrollback
          alternate_state := none }
  | none => b

/-- `TerminalBuffer::execute_command` from `src/core/buffer.rs`.

`none` models a Rust panic under the debug profile:
* `Command::ScrollDown(n)` / `Command::InsertLine(n)` with `n > height`
  underflow the `usize` expression `height - n` in `scroll_down` (in release
  the subtraction wraps and the loop bound becomes about `2^64`);
* `Command::MoveCursor` on an empty grid underflows `width - 1` /
  `height - 1`.

The source `match` has no arms for `SetHyperlink`, `SetScrollRegion`,
`SetMouseMode`, `InsertChars`, `DeleteChars` and `Bell`; they are modelled
as no-ops.  All other arms are translated directly. -/
def execute_command (b : TerminalBuffer) (cmd : Command) : Option TerminalBuffer :=
  match cmd with
  | Command.Print c =>
      if c = '\n' then some b.lineFeed
      else if c = '\r' then some { b with cursor_x := 0 }
      else if c = '\t' then some b.advance_to_next_tab_stop
      else some (b.write_char c)
  | Command.Execute byte =>
      if byte = 10 then some b.lineFeed
      else if byte = 13 then some { b with cursor_x := 0 }
      else if byte = 9 then
        -- `self.cursor_x = ((self.cursor_x / tab_stop) + 1) * tab_stop;`
        -- with `tab_stop = 8`; note: no clamping to the grid width.
        some { b with cursor_x := (b.cursor_x / 8 + 1) * 8 }
      else if byte = 8 then
        some (if 0 < b.cursor_x then { b with cursor_x := b.cursor_x - 1 } else b)
      else some b
  | Command.MoveCursor x y =>
      if b.grid.width = 0 ∨ b.grid.height = 0 then none
      else some { b with
        cursor_x := min x (b.grid.width - 1)
        cursor_y := min y (b.grid.height - 1) }
  | Command.MoveCursorRelative dx dy =>
      some { b with
        cursor_x := castUsize (min (max (castI32 b.cursor_x + dx) 0) (castI32 b.grid.width - 1))
        cursor_y := castUsize (min (max (castI32 b.cursor_y + dy) 0) (castI32 b.grid.height - 1)) }
  | Command.ClearScreen =>
      some { b with grid := b.grid.clear, cursor_x := 0, cursor_y := 0 }
  | Command.ClearLine =>
      let g := (List.range b.grid.width).foldl
        (fun g x => g.setIgnore x b.cursor_y Cell.default) b.grid
      some { b with grid := g }
  | Command.EraseDisplay mode =>
      let w := b.grid.width
      let h := b.grid.height
      if mode = 0 then
        -- row tail from the cursor, then every row below
        let g1 := (List.range' b.cursor_x (w - b.cursor_x)).foldl
          (fun g x => g.setIgnore x b.cursor_y Cell.default) b.grid
        let g2 := ((List.range' (b.cursor_y + 1) (h - (b.cursor_y + 1))).flatMap fun y =>
            (List.range w).map fun x => (x, y)).foldl
          (fun g p => g.setIgnore p.1 p.2 Cell.default) g1
        some { b with grid := g2 }
      else if mode = 1 then
        -- every row above, then the row head up to `min cursor_x (w-1)`
        let g1 := ((List.range b.cursor_y).flatMap fun y =>
            (List.range w).map fun x => (x, y)).foldl
          (fun g p => g.setIgnore p.1 p.2 Cell.default) b.grid
        let g2 := (List.range (min b.cursor_x (w - 1) + 1)).foldl
          (fun g x => g.setIgnore x b.cursor_y Cell.default) g1
        some { b with grid := g2 }
      else some b
  | Command.EraseLine mode =>
      let w := b.grid.width
      if mode = 0 then
        let g := (List.range' b.cursor_x (w - b.cursor_x)).foldl
          (fun g x => g.setIgnore x b.cursor_y Cell.default) b.grid
        some { b with grid := g }
      else if mode = 1 then
        let g := (List.range (min b.cursor_x (w - 1) + 1)).foldl
          (fun g x => g.setIgnore x b.cursor_y Cell.default) b.grid
        some { b with grid := g }
      else if mode = 2 then
        let g := (List.range w).foldl
          (fun g x => g.setIgnore x b.cursor_y Cell.default) b.grid
        some { b with grid := g }
      else some b
  | Command.SetStyle style => some { b with current_style := style }
  | Command.SetForeground color =>
      some { b with current_style := { b.current_style with fg := color } }
  | Command.SetBackground color =>
      some { b with current_style := { b.current_style with bg := color } }
  | Command.SaveCursor =>
      some { b with saved_cursor := some (b.cursor_x, b.cursor_y, b.current_style) }
  | Command.RestoreCursor =>
      match b.saved_cursor with
      | some (x, y, style) =>
          some { b with cursor_x := x, cursor_y := y, current_style := style }
      | none => some b
  | Command.ScrollUp n => some (b.scroll_up n)
  | Command.ScrollDown n =>
      if b.grid.height < n then none else some (b.scroll_down n)
  | Command.InsertLine n =>
      if b.grid.height < n then none else some (b.scroll_down n)
  | Command.DeleteLine n => some (b.scroll_up n)
  | Command.EraseChars n =>
      let g := (List.range n).foldl
        (fun g i =>
          if b.cursor_x + i < b.grid.width then
            g.setIgnore (b.cursor_x + i) b.cursor_y Cell.default
          else g)
        b.grid
      some { b with grid := g }
  | Command.Reset =>
      some { b with
        grid := b.grid.clear
        cursor_x := 0
        cursor_y := 0
        current_style := CellStyle.default
        saved_cursor := none }
  | Command.EnterAlternateScreen => some b.enter_alternate_screen
  | Command.ExitAlternateScreen => some b.exit_alternate_screen
  | Command.SetTitle _ => some b
  | Command.SetCursorStyle style => some { b with cursor_style := style }
  | Command.SetBracketedPaste enabled => some { b with bracketed_paste := enabled }
  | Command.SetCharset charset => some { b with charset := charset }
  | Command.SetTabStop =>
      some (if b.cursor_x < b.tab_stops.length then
        { b with tab_stops := b.tab_stops.set b.cursor_x true } else b)
  | Command.ClearTabStop =>
      some (if b.cursor_x < b.tab_stops.length then
        { b with tab_stops := b.tab_stops.set b.cursor_x false } else b)
  | Command.ClearAllTabStops =>
      some { b with tab_stops := List.replicate b.tab_stops.length false }
  | Command.ShowCursor => some b
  | Command.HideCursor => some b
  | Command.DeviceAttributeQuery =>
      -- `self.pending_responses.push(b"\x1b[?1;2c".to_vec());`
      let q := b.pending_responses ++ [[0x1B, 0x5B, 0x3F, 0x31, 0x3B, 0x32, 0x63]]
      some { b with pending_responses := q }
  | Command.SetHyperlink _ => some b
  | Command.SetScrollRegion _ _ => some b
  | Command.SetMouseMode _ => some b
  | Command.InsertChars _ => some b
  | Command.DeleteChars _ => some b
  | Command.Bell => some b

/-- `TerminalBuffer::resize`: resize the grid, clamp the cursor with
saturating subtraction; always returns `Ok(())`.  Note that the source does
not touch `tab_stops`. -/
def resize (b : TerminalBuffer) (width height : Nat) : TerminalBuffer × Except String Unit :=
  ({ b with
      grid := b.grid.resize width height
      cursor_x := min b.cursor_x (width - 1)
      cursor_y := min b.cursor_y (height - 1) },
    Except.ok ())

/-- `TerminalBuffer::clear`. -/
def clearBuffer (b : TerminalBuffer) : TerminalBuffer :=
  { b with grid := b.grid.clear, cursor_x := 0, cursor_y := 0 }

/-- Executing a command sequence left to right; `none` as soon as one
command panics. -/
def execSeq (b : TerminalBuffer) : List Command → Option TerminalBuffer
  | [] => some b
  | c :: cs => (b.execute_command c).bind (fun b' => execSeq b' cs)

/-- The scrollback-capacity invariant: the live scrollback — and, while the
alternate screen is active, the saved primary scrollback — never exceeds
`scrollback_limit`. -/
def SBInv (b : TerminalBuffer) : Prop :=
  b.scrollback.length ≤ b.scrollback_limit ∧
    ∀ s, b.alternate_state = some s → s.scrollback.length ≤ b.scrollback_limit

end TerminalBuffer

/-- The screen-model part of `TerminalEngine` from `src/lib.rs` (the parser
and renderer members play no role in the resize path). -/
structure TerminalEngine where
  buffer : TerminalBuffer
  width : Nat
  height : Nat
deriving DecidableEq, Repr

namespace TerminalEngine

/-- `TerminalEngine::new`. -/
def new (width height : Nat) : TerminalEngine :=
  { buffer := TerminalBuffer.new width height, width := width, height := height }

/-- `TerminalEngine::resize`: store the dimensions and forward to
`TerminalBuffer::resize`, propagating its `Result`. -/
def resize (e : TerminalEngine) (width height : Nat) : TerminalEngine × Except String Unit :=
  let r := e.buffer.resize width height
  ({ e with buffer := r.1, width := width, height := height }, r.2)

end TerminalEngine

/-! ### Parser

The byte-level state machine itself is the external `vte` crate (not part of
this repository); it is modelled from the spec (§4.1: a VT500-series machine
over ground / escape / CSI / OSC / other-string states, resumable across
chunk boundaries).  The dispatch logic layered on top (`AnsiPerformer` and
the color decoding) is translated from `src/parser/ansi.rs`. -/

/-- `ansi_color` from `src/parser/ansi.rs`. -/
def ansi_color (n : Nat) : Color :=
  if n = 0 then Color.new 0 0 0
  else if n = 1 then Color.new 205 49 49
  else if n = 2 then Color.new 13 188 121
  else if n = 3 then Color.new 229 229 16
  else if n = 4 then Color.new 36 114 200
  else if n = 5 then Color.new 188 63 188
  else if n = 6 then Color.new 17 168 205
  else if n = 7 then Color.new 229 229 229
  else Color.WHITE

/-- `ansi_bright_color` from `src/parser/ansi.rs`. -/
def ansi_bright_color (n : Nat) : Color :=
  if n = 0 then Color.new 102 102 102
  else if n = 1 then Color.new 241 76 76
  else if n = 2 then Color.new 35 209 139
  else if n = 3 then Color.new 245 245 67
  else if n = 4 then Color.new 59 142 234
  else if n = 5 then Color.new 214 112 214
  else if n = 6 then Color.new 41 184 219
  else if n = 7 then Color.new 255 255 255
  else Color.WHITE

/-- `color_256` from `src/parser/ansi.rs` (argument is a `u8`). -/
def color_256 (n : Nat) : Color :=
  if n ≤ 15 then
    if n < 8 then ansi_color n else ansi_bright_color (n - 8)
  else if n ≤ 231 then
    let m := n - 16
    let r := m / 36 % 6
    let g := m / 6 % 6
    let b := m % 6
    let to_rgb := fun v => if v = 0 then 0 else 55 + v * 40
    Color.new (to_rgb r) (to_rgb g) (to_rgb b)
  else
    let gray := 8 + (n - 232) * 10
    Color.new gray gray gray

/-- The underline-style table of the SGR `4:x` subparameter arm. -/
def underlineOf (sub : Nat) : UnderlineStyle :=
  if sub = 0 then UnderlineStyle.none
  else if sub = 1 then UnderlineStyle.single
  else if sub = 2 then UnderlineStyle.double
  else if sub = 3 then UnderlineStyle.curly
  else if sub = 4 then UnderlineStyle.dotted
  else if sub = 5 then UnderlineStyle.dashed
  else UnderlineStyle.single

/-- `AnsiPerformer::parse_extended_color`: reads the sub-mode and color
operands following a 38/48 parameter; returns the color and the number of
extra parameters consumed (`*i += 2` / `*i += 4` in the source), or `none`
with nothing consumed. -/
def parse_extended_color (rest : List Nat) : Option (Color × Nat) :=
  match rest[0]? with
  | some 5 => (rest[1]?).map fun n => (color_256 (n % 256), 2)
  | some 2 =>
      match rest[1]?, rest[2]?, rest[3]? with
      | some r, some g, some b => some (Color.new (r % 256) (g % 256) (b % 256), 4)
      | _, _, _ => none
  | _ => none

/-- The body of the `while i < flat.len()` loop of `AnsiPerformer::handle_sgr`,
as a recursion over the not-yet-consumed flattened parameters.  `acc` carries
the `SetForeground` / `SetBackground` side-channel commands pushed so far. -/
def sgrLoop (flat : List Nat) (st : CellStyle) (acc : List Command) :
    CellStyle × List Command :=
  match flat with
  | [] => (st, acc)
  | p :: rest =>
    if p = 0 then sgrLoop rest CellStyle.default acc
    else if p = 1 then sgrLoop rest { st with bold := true } acc
    else if p = 2 then sgrLoop rest { st with dim := true } acc
    else if p = 3 then sgrLoop rest { st with italic := true } acc
    else if p = 4 then
      -- `if i + 1 < flat.len() && flat[i + 1] <= 5` consumes the subparameter
      match rest[0]? with
      | some sub =>
          if sub ≤ 5 then sgrLoop (rest.drop 1) { st with underline := underlineOf sub } acc
          else sgrLoop rest { st with underline := UnderlineStyle.single } acc
      | none => sgrLoop rest { st with underline := UnderlineStyle.single } acc
    else if p = 7 then sgrLoop rest { st with reverse := true } acc
    else if p = 8 then sgrLoop rest { st with hidden := true } acc
    else if p = 9 then sgrLoop rest { st with strikethrough := true } acc
    else if p = 22 then sgrLoop rest { st with bold := false, dim := false } acc
    else if p = 23 then sgrLoop rest { st with italic := false } acc
    else if p = 24 then sgrLoop rest { st with underline := UnderlineStyle.none } acc
    else if p = 27 then sgrLoop rest { st with reverse := false } acc
    else if p = 28 then sgrLoop rest { st with hidden := false } acc
    else if p = 29 then sgrLoop rest { st with strikethrough := false } acc
    else if 30 ≤ p ∧ p ≤ 37 then
      let color := ansi_color (p - 30)
      sgrLoop rest { st with fg := color } (acc ++ [Command.SetForeground color])
    else if p = 38 then
      match parse_extended_color rest with
      | some (color, k) =>
          sgrLoop (rest.drop k) { st with fg := color } (acc ++ [Command.SetForeground color])
      | none => sgrLoop rest st acc
    else if p = 39 then
      sgrLoop rest { st with fg := Color.WHITE } (acc ++ [Command.SetForeground Color.WHITE])
    else if 40 ≤ p ∧ p ≤ 47 then
      let color := ansi_color (p - 40)
      sgrLoop rest { st with bg := color } (acc ++ [Command.SetBackground color])
    else if p = 48 then
      match parse_extended_color rest with
      | some (color, k) =>
          sgrLoop (rest.drop k) { st with bg := color } (acc ++ [Command.SetBackground color])
      | none => sgrLoop rest st acc
    else if p = 49 then
      sgrLoop rest { st with bg := Color.BLACK } (acc ++ [Command.SetBackground Color.BLACK])
    else if 90 ≤ p ∧ p ≤ 97 then
      let color := ansi_bright_color (p - 90)
      sgrLoop rest { st with fg := color } (acc ++ [Command.SetForeground color])
    else if 100 ≤ p ∧ p ≤ 107 then
      let color := ansi_bright_color (p - 100)
      sgrLoop rest { st with bg := color } (acc ++ [Command.SetBackground color])
    else sgrLoop rest st acc
termination_by flat.length
decreasing_by
  all_goals simp only [List.length_drop, List.length_cons]
  all_goals omega

/-- `AnsiPerformer::handle_sgr`: empty parameter list resets the style;
otherwise the subparameter groups are flattened and consumed left to right,
and a final `SetStyle` with the updated style is emitted. -/
def handle_sgr (params : List (List Nat)) (st : CellStyle) :
    CellStyle × List Command :=
  if params.isEmpty then
    (CellStyle.default, [Command.SetStyle CellStyle.default])
  else
    let flat := params.flatMap id
    let r := sgrLoop flat st []
    (r.1, r.2 ++ [Command.SetStyle r.1])

/-- First parameter with a default (`params.iter().next().and_then(|p| p.first()).unwrap_or(&d)`). -/
def firstParam (params : List (List Nat)) (d : Nat) : Nat :=
  ((params[0]?).bind fun g => g[0]?).getD d

/-- Second parameter with a default (the second `iter.next()`). -/
def secondParam (params : List (List Nat)) (d : Nat) : Nat :=
  ((params[1]?).bind fun g => g[0]?).getD d

/-- `AnsiPerformer::handle_private_mode`. -/
def handle_private_mode (params : List (List Nat)) (c : Char) : List Command :=
  let mode := firstParam params 0
  if mode = 1049 ∧ c = 'h' then [Command.EnterAlternateScreen]
  else if mode = 1049 ∧ c = 'l' then [Command.ExitAlternateScreen]
  else if (mode = 47 ∨ mode = 1047) ∧ c = 'h' then [Command.EnterAlternateScreen]
  else if (mode = 47 ∨ mode = 1047) ∧ c = 'l' then [Command.ExitAlternateScreen]
  else if mode = 2004 ∧ c = 'h' then [Command.SetBracketedPaste true]
  else if mode = 2004 ∧ c = 'l' then [Command.SetBracketedPaste false]
  else if mode = 25 ∧ c = 'h' then [Command.ShowCursor]
  else if mode = 25 ∧ c = 'l' then [Command.HideCursor]
  else if (mode = 9 ∨ mode = 1000) ∧ c = 'h' then [Command.SetMouseMode MouseMode.reportClick]
  else if mode = 1002 ∧ c = 'h' then [Command.SetMouseMode MouseMode.reportMotion]
  else if mode = 1003 ∧ c = 'h' then [Command.SetMouseMode MouseMode.reportAll]
  else if (mode = 9 ∨ mode = 1000 ∨ mode = 1002 ∨ mode = 1003) ∧ c = 'l' then
    [Command.SetMouseMode MouseMode.none]
  else []

/-- `usize::MAX`, used by the DECSTBM arm for `bottom = 0`. -/
def USIZE_MAX : Nat := 2 ^ 64 - 1

/-- The cursor-style table of the `CSI Ps SP q` arm. -/
def cursorStyleOf (n : Nat) : CursorStyle :=
  if n = 0 ∨ n = 1 then CursorStyle.blinkBlock
  else if n = 2 then CursorStyle.steadyBlock
  else if n = 3 then CursorStyle.blinkUnderline
  else if n = 4 then CursorStyle.steadyUnderline
  else if n = 5 then CursorStyle.blinkBar
  else if n = 6 then CursorStyle.steadyBar
  else CursorStyle.blinkBlock

/-- `AnsiPerformer::csi_dispatch`, returning the updated performer style
(only the SGR arm changes it) together with the emitted commands. -/
def csi_dispatch (params : List (List Nat)) (intermediates : List Nat)
    (c : Char) (st : CellStyle) : CellStyle × List Command :=
  if intermediates[0]? = some 0x3F then (st, handle_private_mode params c)
  else if c = 'A' then (st, [Command.MoveCursorRelative 0 (-(firstParam params 1 : Int))])
  else if c = 'B' then (st, [Command.MoveCursorRelative 0 (firstParam params 1 : Int)])
  else if c = 'C' then (st, [Command.MoveCursorRelative (firstParam params 1 : Int) 0])
  else if c = 'D' then (st, [Command.MoveCursorRelative (-(firstParam params 1 : Int)) 0])
  else if c = 'H' ∨ c = 'f' then
    (st, [Command.MoveCursor (secondParam params 1 - 1) (firstParam params 1 - 1)])
  else if c = 'J' then
    let n := firstParam params 0 % 256
    if n = 2 then (st, [Command.ClearScreen]) else (st, [Command.EraseDisplay n])
  else if c = 'K' then (st, [Command.EraseLine (firstParam params 0 % 256)])
  else if c = 'm' then handle_sgr params st
  else if c = 'L' then (st, [Command.InsertLine (firstParam params 1)])
  else if c = 'M' then (st, [Command.DeleteLine (firstParam params 1)])
  else if c = '@' then (st, [Command.InsertChars (firstParam params 1)])
  else if c = 'P' then (st, [Command.DeleteChars (firstParam params 1)])
  else if c = 'S' then (st, [Command.ScrollUp (firstParam params 1)])
  else if c = 'T' then (st, [Command.ScrollDown (firstParam params 1)])
  else if c = 's' then (st, [Command.SaveCursor])
  else if c = 'u' then (st, [Command.RestoreCursor])
  else if c = 'g' then
    let n := firstParam params 0
    if n = 0 then (st, [Command.ClearTabStop])
    else if n = 3 then (st, [Command.ClearAllTabStops])
    else (st, [])
  else if c = 'q' ∧ intermediates[0]? = some 0x20 then
    (st, [Command.SetCursorStyle (cursorStyleOf (firstParam params 0))])
  else if c = 'c' then (st, [Command.DeviceAttributeQuery])
  else if c = 'r' then
    let top := firstParam params 1
    let bottom := secondParam params 0
    (st, [Command.SetScrollRegion (top - 1) (if bottom = 0 then USIZE_MAX else bottom - 1)])
  else (st, [])

/-- `AnsiPerformer::esc_dispatch`: the `ESC ( 0` / `ESC ( B` charset pairs
return early; any other byte falls through to the final-byte table. -/
def esc_dispatch (intermediates : List Nat) (byte : Nat) : List Command :=
  if intermediates[0]? = some 0x28 ∧ byte = 0x30 then [Command.SetCharset Charset.lineDrawing]
  else if intermediates[0]? = some 0x28 ∧ byte = 0x42 then [Command.SetCharset Charset.ascii]
  else if byte = 0x63 then [Command.Reset]
  else if byte = 0x37 then [Command.SaveCursor]
  else if byte = 0x38 then [Command.RestoreCursor]
  else if byte = 0x48 then [Command.SetTabStop]
  else []

/-- The `str::from_utf8` title/URI decoding, modelled for the ASCII subset
(bytes ≥ 0x80 make the decode fail in the model; no claim depends on
non-ASCII titles or URIs). -/
def decodeAscii (bs : List Nat) : Option String :=
  if bs.all (fun b => b < 128) then some (String.mk (bs.map Char.ofNat)) else none

/-- Split a byte list on `;` (0x3B), for the OSC 8 `id=…` search. -/
def splitSemi (bs : List Nat) : List (List Nat) :=
  bs.foldr
    (fun b groups =>
      match groups with
      | g :: gs => if b = 0x3B then [] :: (g :: gs) else (b :: g) :: gs
      | [] => [[b]])
    [[]]

/-- `AnsiPerformer::osc_dispatch`.  `Hyperlink::new` generates a fresh
counter-based id from a global atomic when none is given; that global state
is modelled by a fixed placeholder id (no claim depends on hyperlink ids). -/
def osc_dispatch (params : List (List Nat)) : List Command :=
  match params[0]? with
  | some [0x30] | some [0x32] =>
      match (params[1]?).bind decodeAscii with
      | some title => [Command.SetTitle title]
      | none => []
  | some [0x38] =>
      match (params[2]?).bind decodeAscii with
      | some uri =>
          if uri = "" then [Command.SetHyperlink none]
          else
            let idBytes := ((params[1]?).map splitSemi).bind fun gs =>
              (gs.find? fun g => g.take 3 = [0x69, 0x64, 0x3D]).map fun g => g.drop 3
            let id := (idBytes.bind decodeAscii).getD "0_rin"
            [Command.SetHyperlink (some { id := id, uri := uri })]
      | none => []
  | _ => []

/-- The `execute` action: BEL is surfaced as `Bell`, every other C0 byte as
`Execute`. -/
def executeAction (byte : Nat) : List Command :=
  if byte = 0x07 then [Command.Bell] else [Command.Execute byte]

/-- Modelled from the spec: the states of the `vte` VT500 machine that this
model distinguishes (DCS/SOS/PM/APC strings are consumed by `strIgnore`;
a partially decoded UTF-8 scalar lives in `utf8`). -/
inductive VTState where
  | ground
  | escape
  | csi
  | osc
  | strIgnore
  | utf8 (acc : Nat) (need : Nat)
deriving DecidableEq, Repr

/-- Modelled from the spec: the resumable state of the `vte` parser plus the
parameter/intermediate/OSC accumulators it hands to the performer. -/
structure Machine where
  state : VTState
  params : List (List Nat)
  curGroup : List Nat
  curVal : Nat
  anyParam : Bool
  intermediates : List Nat
  oscParams : List (List Nat)
  oscCur : List Nat
  oscAny : Bool
deriving DecidableEq, Repr

def Machine.initial : Machine :=
  { state := VTState.ground
    params := []
    curGroup := []
    curVal := 0
    anyParam := false
    intermediates := []
    oscParams := []
    oscCur := []
    oscAny := false }

/-- The `clear` action: reset parameter and intermediate accumulators. -/
def Machine.clearAccum (m : Machine) : Machine :=
  { m with params := [], curGroup := [], curVal := 0, anyParam := false,
           intermediates := [] }

/-- The parameter list handed to `csi_dispatch` (the pending value is pushed
only when some parameter byte was seen). -/
def Machine.finalParams (m : Machine) : List (List Nat) :=
  if m.anyParam then m.params ++ [m.curGroup ++ [m.curVal]] else []

/-- The parameter list handed to `osc_dispatch`. -/
def Machine.finalOscParams (m : Machine) : List (List Nat) :=
  if m.oscAny then m.oscParams ++ [m.oscCur] else []

/-- `AnsiParser` from `src/parser/ansi.rs`: the (spec-modelled) machine plus
the performer's persistent `current_style`. -/
structure AnsiParser where
  machine : Machine
  style : CellStyle
deriving DecidableEq, Repr

def AnsiParser.new : AnsiParser :=
  { machine := Machine.initial, style := CellStyle.default }

/-- One byte fed while in ground state (also the re-handling of a byte that
aborts a UTF-8 sequence). -/
def groundStep (p : AnsiParser) (byte : Nat) : AnsiParser × List Command :=
  let m := p.machine
  if byte = 0x1B then
    ({ p with machine := { m.clearAccum with state := VTState.escape } }, [])
  else if byte < 0x20 ∨ byte = 0x7F then
    (p, executeAction byte)
  else if byte ≤ 0x7E then
    (p, [Command.Print (Char.ofNat byte)])
  else if 0xC0 ≤ byte ∧ byte ≤ 0xDF then
    ({ p with machine := { m with state := VTState.utf8 (byte - 0xC0) 1 } }, [])
  else if 0xE0 ≤ byte ∧ byte ≤ 0xEF then
    ({ p with machine := { m with state := VTState.utf8 (byte - 0xE0) 2 } }, [])
  else if 0xF0 ≤ byte ∧ byte ≤ 0xF7 then
    ({ p with machine := { m with state := VTState.utf8 (byte - 0xF0) 3 } }, [])
  else (p, [])

/-- Modelled from the spec: one byte of input advancing the resumable
machine, emitting the commands the performer would push.  (`vte`'s
`Parser::advance` with the `AnsiPerformer` callbacks of
`src/parser/ansi.rs`.) -/
def advanceByte (p : AnsiParser) (byte : Nat) : AnsiParser × List Command :=
  let m := p.machine
  match m.state with
  | VTState.ground => groundStep p byte
  | VTState.utf8 acc need =>
      if 0x80 ≤ byte ∧ byte ≤ 0xBF then
        let acc' := acc * 64 + (byte - 0x80)
        if need = 1 then
          let p' := { p with machine := { m with state := VTState.ground } }
          if acc'.isValidChar then (p', [Command.Print (Char.ofNat acc')])
          else (p', [])
        else ({ p with machine := { m with state := VTState.utf8 acc' (need - 1) } }, [])
      else
        -- aborted sequence: drop the pending scalar, re-handle from ground
        groundStep { p with machine := { m with state := VTState.ground } } byte
  | VTState.escape =>
      if byte = 0x1B then
        ({ p with machine := { m.clearAccum with state := VTState.escape } }, [])
      else if byte = 0x5B then
        ({ p with machine := { m with state := VTState.csi } }, [])
      else if byte = 0x5D then
        let m' := { m with
          state := VTState.osc
          oscParams := []
          oscCur := []
          oscAny := false }
        ({ p with machine := m' }, [])
      else if byte = 0x50 ∨ byte = 0x58 ∨ byte = 0x5E ∨ byte = 0x5F then
        ({ p with machine := { m with state := VTState.strIgnore } }, [])
      else if 0x20 ≤ byte ∧ byte ≤ 0x2F then
        ({ p with machine := { m with intermediates := m.intermediates ++ [byte] } }, [])
      else if byte < 0x20 then
        (p, executeAction byte)
      else if byte ≤ 0x7E then
        ({ p with machine := { m with state := VTState.ground } },
          esc_dispatch m.intermediates byte)
      else (p, [])
  | VTState.csi =>
      if byte = 0x1B then
        ({ p with machine := { m.clearAccum with state := VTState.escape } }, [])
      else if 0x30 ≤ byte ∧ byte ≤ 0x39 then
        ({ p with machine := { m with
            curVal := min (m.curVal * 10 + (byte - 0x30)) 65535,
            anyParam := true } }, [])
      else if byte = 0x3B then
        ({ p with machine := { m with
            params := m.params ++ [m.curGroup ++ [m.curVal]],
            curGroup := [], curVal := 0, anyParam := true } }, [])
      else if byte = 0x3A then
        ({ p with machine := { m with
            curGroup := m.curGroup ++ [m.curVal], curVal := 0,
            anyParam := true } }, [])
      else if 0x20 ≤ byte ∧ byte ≤ 0x3F then
        ({ p with machine := { m with intermediates := m.intermediates ++ [byte] } }, [])
      else if byte < 0x20 then
        (p, executeAction byte)
      else if byte ≤ 0x7E then
        let r := csi_dispatch m.finalParams m.intermediates (Char.ofNat byte) p.style
        ({ machine := { m with state := VTState.ground }, style := r.1 }, r.2)
      else (p, [])
  | VTState.osc =>
      if byte = 0x07 then
        ({ p with machine := { m with state := VTState.ground } },
          osc_dispatch m.finalOscParams)
      else if byte = 0x1B then
        ({ p with machine := { m.clearAccum with state := VTState.escape } },
          osc_dispatch m.finalOscParams)
      else if byte = 0x3B then
        ({ p with machine := { m with
            oscParams := m.oscParams ++ [m.oscCur]
            oscCur := []
            oscAny := true } }, [])
      else
        ({ p with machine := { m with
            oscCur := m.oscCur ++ [byte]
            oscAny := true } }, [])
  | VTState.strIgnore =>
      if byte = 0x07 then
        ({ p with machine := { m with state := VTState.ground } }, [])
      else if byte = 0x1B then
        ({ p with machine := { m.clearAccum with state := VTState.escape } }, [])
      else (p, [])

/-- `AnsiParser::parse`: clear the command buffer, advance the resumable
machine over every byte, return the collected commands alongside the
carried-over parser state. -/
def AnsiParser.parse (p : AnsiParser) (data : List Nat) : List Command × AnsiParser :=
  data.foldl
    (fun acc byte =>
      let r := advanceByte acc.2 byte
      (acc.1 ++ r.2, r.1))
    ([], p)

/-! ### Grid lemmas -/

namespace Grid

theorem setIgnore_width (g : Grid) (x y : Nat) (c : Cell) :
    (g.setIgnore x y c).width = g.width := by
  simp only [setIgnore, set]
  split <;> rfl

theorem setIgnore_height (g : Grid) (x y : Nat) (c : Cell) :
    (g.setIgnore x y c).height = g.height := by
  simp only [setIgnore, set]
  split <;> rfl

theorem setIgnore_WF {g : Grid} (hwf : g.WF) (x y : Nat) (c : Cell) :
    (g.setIgnore x y c).WF := by
  simp only [WF, setIgnore, set] at *
  split <;> simp [List.length_set, hwf]

theorem rowMajor_lt {x y w h : Nat} (hx : x < w) (hy : y < h) :
    y * w + x < w * h :=
  calc y * w + x < y * w + w := by omega
    _ = (y + 1) * w := by ring
    _ ≤ h * w := Nat.mul_le_mul_right w (by omega)
    _ = w * h := Nat.mul_comm h w

theorem rowMajor_inj {x x' y y' w : Nat} (hx : x < w) (hx' : x' < w)
    (h : y * w + x = y' * w + x') : x = x' ∧ y = y' := by
  have hw : 0 < w := lt_of_le_of_lt (Nat.zero_le x) hx
  have e1 : (y * w + x) / w = y := by
    rw [Nat.mul_comm y w, Nat.mul_add_div hw, Nat.div_eq_of_lt hx]
    omega
  have e2 : (y' * w + x') / w = y' := by
    rw [Nat.mul_comm y' w, Nat.mul_add_div hw, Nat.div_eq_of_lt hx']
    omega
  have hy : y = y' := by rw [← e1, ← e2, h]
  subst hy
  exact ⟨by omega, rfl⟩

theorem get_setIgnore (g : Grid) (hwf : g.WF) {x y : Nat} (hx : x < g.width)
    (hy : y < g.height) (c : Cell) (x' y' : Nat) :
    (g.setIgnore x y c).get x' y' =
      if x' = x ∧ y' = y then some c else g.get x' y' := by
  simp only [setIgnore, set]
  rw [if_neg (by omega)]
  by_cases hoob : g.width ≤ x' ∨ g.height ≤ y'
  · rw [if_neg (by omega)]
    simp only [get]
    rw [if_pos hoob, if_pos hoob]
  · push_neg at hoob
    simp only [get]
    rw [if_neg (by omega)]
    by_cases heq : x' = x ∧ y' = y
    · obtain ⟨h1, h2⟩ := heq
      subst h1; subst h2
      rw [if_pos ⟨rfl, rfl⟩]
      exact List.getElem?_set_eq_of_lt c (hwf ▸ rowMajor_lt hx hy)
    · rw [if_neg heq, if_neg (by omega)]
      have hne : y * g.width + x ≠ y' * g.width + x' := by
        intro hcon
        exact heq ⟨(rowMajor_inj hx hoob.1 hcon).1.symm, (rowMajor_inj hx hoob.1 hcon).2.symm⟩
      exact List.getElem?_set_ne hne

theorem clearFold_width (g : Grid) (ps : List (Nat × Nat)) :
    (clearFold g ps).width = g.width := by
  induction ps generalizing g with
  | nil => rfl
  | cons p ps ih => rw [clearFold, List.foldl_cons, ← clearFold, ih, setIgnore_width]

theorem clearFold_height (g : Grid) (ps : List (Nat × Nat)) :
    (clearFold g ps).height = g.height := by
  induction ps generalizing g with
  | nil => rfl
  | cons p ps ih => rw [clearFold, List.foldl_cons, ← clearFold, ih, setIgnore_height]

theorem clearFold_WF {g : Grid} (hwf : g.WF) (ps : List (Nat × Nat)) :
    (clearFold g ps).WF := by
  induction ps generalizing g with
  | nil => exact hwf
  | cons p ps ih =>
    rw [clearFold, List.foldl_cons, ← clearFold]
    exact ih (setIgnore_WF hwf ..)

theorem get_clearFold {g : Grid} (hwf : g.WF) {ps : List (Nat × Nat)}
    (hb : ∀ p ∈ ps, p.1 < g.width ∧ p.2 < g.height) (x y : Nat) :
    (clearFold g ps).get x y =
      if (x, y) ∈ ps then some Cell.default else g.get x y := by
  induction ps generalizing g with
  | nil => simp [clearFold]
  | cons p ps ih =>
    have hp := hb p (List.mem_cons_self ..)
    rw [clearFold, List.foldl_cons, ← clearFold]
    have hb' : ∀ q ∈ ps, q.1 < (g.setIgnore p.1 p.2 Cell.default).width ∧
        q.2 < (g.setIgnore p.1 p.2 Cell.default).height := by
      intro q hq
      rw [setIgnore_width, setIgnore_height]
      exact hb q (List.mem_cons_of_mem _ hq)
    rw [ih (setIgnore_WF hwf ..) hb']
    rw [get_setIgnore g hwf hp.1 hp.2]
    by_cases hmem : (x, y) ∈ ps
    · rw [if_pos hmem, if_pos (List.mem_cons_of_mem _ hmem)]
    · rw [if_neg hmem]
      by_cases heq : x = p.1 ∧ y = p.2
      · rw [if_pos heq, if_pos]
        rw [List.mem_cons]
        exact Or.inl (Prod.ext heq.1 heq.2)
      · rw [if_neg heq, if_neg]
        rw [List.mem_cons]
        rintro (h | h)
        · exact heq ⟨congrArg Prod.fst h, congrArg Prod.snd h⟩
        · exact hmem h

theorem clear_width (g : Grid) : g.clear.width = g.width := rfl

theorem clear_height (g : Grid) : g.clear.height = g.height := rfl

theorem get_clear {g : Grid} (hwf : g.WF) {x y : Nat} (hx : x < g.width)
    (hy : y < g.height) : g.clear.get x y = some Cell.default := by
  simp only [clear, get]
  rw [if_neg (by omega)]
  rw [List.getElem?_replicate, if_pos (hwf ▸ rowMajor_lt hx hy)]

end Grid

/-! ### Parser chunking (C7) -/

theorem parse_foldl_acc (data : List Nat) (p : AnsiParser) (cs : List Command) :
    data.foldl
      (fun acc byte =>
        let r := advanceByte acc.2 byte
        (acc.1 ++ r.2, r.1))
      (cs, p) =
      (cs ++ (p.parse data).1, (p.parse data).2) := by
  induction data generalizing p cs with
  | nil => simp [AnsiParser.parse]
  | cons byte rest ih =>
    simp only [AnsiParser.parse, List.foldl_cons]
    rw [ih, ih]
    simp

/-- C7: feeding two byte chunks to one stateful parser in successive calls
yields the same command sequence (and the same final parser state) as one
concatenated call, for every split — including splits in the middle of an
escape sequence. -/
theorem rin_c7_parse_chunks (p : AnsiParser) (a b : List Nat) :
    (p.parse (a ++ b)).1 = (p.parse a).1 ++ ((p.parse a).2.parse b).1 ∧
    (p.parse (a ++ b)).2 = ((p.parse a).2.parse b).2 := by
  have key : p.parse (a ++ b) =
      ((p.parse a).1 ++ ((p.parse a).2.parse b).1, ((p.parse a).2.parse b).2) := by
    rw [AnsiParser.parse, List.foldl_append]
    rw [show (List.foldl
        (fun acc byte =>
          let r := advanceByte acc.2 byte
          (acc.1 ++ r.2, r.1))
        ([], p) a) = p.parse a from rfl]
    rw [show (p.parse a) = ((p.parse a).1, (p.parse a).2) from rfl]
    exact parse_foldl_acc b (p.parse a).2 (p.parse a).1
  exact ⟨by rw [key], by rw [key]⟩

/-! ### Device attributes (C9) -/

/-- C9: `DeviceAttributeQuery` appends exactly `ESC [ ? 1 ; 2 c` to the
pending-response queue; starting from an empty queue, one query followed by
`drain_responses` yields exactly that one byte vector and leaves the queue
empty, so a second drain returns nothing. -/
theorem rin_c9_device_attributes (b : TerminalBuffer)
    (hq : b.pending_responses = []) :
    ∃ b', b.execute_command Command.DeviceAttributeQuery = some b' ∧
      b'.pending_responses =
        b.pending_responses ++ [[0x1B, 0x5B, 0x3F, 0x31, 0x3B, 0x32, 0x63]] ∧
      b'.drain_responses.1 = [[0x1B, 0x5B, 0x3F, 0x31, 0x3B, 0x32, 0x63]] ∧
      b'.drain_responses.2.drain_responses.1 = [] := by
  refine ⟨_, rfl, rfl, ?_, rfl⟩
  simp [TerminalBuffer.drain_responses, hq]

theorem rin_c9_witness :
    (TerminalBuffer.new 2 2).pending_responses = [] ∧
    ∃ b', (TerminalBuffer.new 2 2).execute_command Command.DeviceAttributeQuery = some b' ∧
      b'.pending_responses =
        (TerminalBuffer.new 2 2).pending_responses ++ [[0x1B, 0x5B, 0x3F, 0x31, 0x3B, 0x32, 0x63]] ∧
      b'.drain_responses.1 = [[0x1B, 0x5B, 0x3F, 0x31, 0x3B, 0x32, 0x63]] ∧
      b'.drain_responses.2.drain_responses.1 = [] :=
  ⟨rfl, rin_c9_device_attributes (TerminalBuffer.new 2 2) rfl⟩

/-! ### Grid bounds (C10) -/

/-- C10: `Grid::get` returns `None` exactly on out-of-bounds coordinates,
and `Grid::set` on such coordinates returns an error while leaving the grid
(cells, dirty flags and dimensions) entirely unchanged; in-bounds `set`
succeeds. -/
theorem rin_c10_grid_bounds (g : Grid) (x y : Nat) (c : Cell) (hwf : g.WF) :
    (g.get x y = none ↔ g.width ≤ x ∨ g.height ≤ y) ∧
    (g.width ≤ x ∨ g.height ≤ y →
      g.set x y c = (g, Except.error "Position out of bounds")) ∧
    (¬(g.width ≤ x ∨ g.height ≤ y) → (g.set x y c).2 = Except.ok ()) := by
  refine ⟨⟨fun h => ?_, fun h => ?_⟩, fun h => ?_, fun h => ?_⟩
  · by_contra hc
    push_neg at hc
    unfold Grid.WF at hwf
    rw [Grid.get, if_neg (by omega)] at h
    rw [List.getElem?_eq_none_iff] at h
    have := Grid.rowMajor_lt (x := x) (y := y) (w := g.width) (h := g.height)
      (by omega) (by omega)
    omega
  · rw [Grid.get, if_pos h]
  · rw [Grid.set, if_pos h]
  · rw [Grid.set, if_neg h]

theorem rin_c10_witness :
    (Grid.new 3 2).WF ∧
    (((Grid.new 3 2).get 5 0 = none ↔ (Grid.new 3 2).width ≤ 5 ∨ (Grid.new 3 2).height ≤ 0) ∧
      ((Grid.new 3 2).width ≤ 5 ∨ (Grid.new 3 2).height ≤ 0 →
        (Grid.new 3 2).set 5 0 Cell.default =
          (Grid.new 3 2, Except.error "Position out of bounds")) ∧
      (¬((Grid.new 3 2).width ≤ 5 ∨ (Grid.new 3 2).height ≤ 0) →
        ((Grid.new 3 2).set 5 0 Cell.default).2 = Except.ok ())) :=
  ⟨by unfold Grid.WF; decide, rin_c10_grid_bounds (Grid.new 3 2) 5 0 Cell.default (by unfold Grid.WF; decide)⟩

/-! ### Panics in execute_command (C1) -/

/-- C1: contrary to the claim, `execute_command` is not total.
`ScrollDown(n)` and `InsertLine(n)` with `n > height` underflow the `usize`
subtraction `height - n` inside `scroll_down` (a panic under the debug
profile; in release the wrapped loop bound is about `2^64`), and
`MoveCursor` on a zero-width or zero-height grid underflows `width - 1` /
`height - 1`.  `none` is the model of those panics. -/
theorem rin_c1_scroll_down_panics :
    (TerminalBuffer.new 3 4).execute_command (Command.ScrollDown 5) = none ∧
    (TerminalBuffer.new 3 4).execute_command (Command.InsertLine 5) = none ∧
    (TerminalBuffer.new 0 2).execute_command (Command.MoveCursor 0 0) = none := by
  refine ⟨rfl, rfl, rfl⟩

/-! ### Cursor invariant broken by C0 tab (C2) -/

/-- C2: contrary to the claim, the `Execute(0x09)` arm sets
`cursor_x = ((cursor_x / 8) + 1) * 8` without clamping: from `(0,0)` on an
8-column grid the cursor lands on column 8 = width, violating
`cursor_x < width`. -/
theorem rin_c2_tab_breaks_cursor_invariant :
    ((TerminalBuffer.new 8 4).execute_command (Command.Execute 9)).map
      (fun b => (b.cursor_x, b.grid.width)) = some (8, 8) := rfl

/-! ### Resize to zero dimensions (C5) -/

/-- C5: contrary to the claim, a resize to zero dimensions is not rejected:
`TerminalEngine::resize(0, 5)` returns `Ok(())` and the grid is shrunk to an
empty 0-wide cell vector. -/
theorem rin_c5_zero_resize_accepted :
    ((TerminalEngine.new 4 4).resize 0 5).2 = Except.ok () ∧
    ((TerminalEngine.new 4 4).resize 0 5).1.buffer.grid.width = 0 ∧
    ((TerminalEngine.new 4 4).resize 0 5).1.buffer.grid.cells.length = 0 := by
  refine ⟨rfl, rfl, by decide⟩

/-- C5 (amended): `resize` never returns an error — every requested
dimension pair, zero included, is accepted and becomes the grid's new
dimensions. -/
theorem rin_c5_resize_never_fails (e : TerminalEngine) (w h : Nat) :
    (e.resize w h).2 = Except.ok () ∧
    (e.resize w h).1.buffer.grid.width = w ∧
    (e.resize w h).1.buffer.grid.height = h :=
  ⟨rfl, rfl, rfl⟩

/-! ### Resize does not rebuild tab stops (C6) -/

/-- C6: contrary to the claim, `TerminalBuffer::resize` never touches the
tab-stops vector: after resizing an 8-column buffer to 16 columns the vector
still has 8 entries, whereas a fresh 16-column buffer has 16. -/
theorem rin_c6_resize_ignores_tab_stops :
    (∀ (b : TerminalBuffer) (w h : Nat), (b.resize w h).1.tab_stops = b.tab_stops) ∧
    ((TerminalBuffer.new 8 4).resize 16 4).1.tab_stops.length = 8 ∧
    (TerminalBuffer.new 16 4).tab_stops.length = 16 := by
  refine ⟨fun b w h => rfl, by decide, by decide⟩

/-! ### Erase display (C3) -/

/-- C3: contrary to the claim, the `EraseDisplay` arm of `execute_command`
has no `mode == 2` case (`_ => {}`): after printing `A` at the origin of a
2×2 buffer, executing `EraseDisplay(2)` leaves the `A` in place instead of
clearing every cell. -/
theorem rin_c3_mode2_counterexample :
    (((TerminalBuffer.new 2 2).execute_command (Command.Print 'A')).bind
      (fun b => b.execute_command (Command.EraseDisplay 2))).map
      (fun b => (b.grid.get 0 0).map Cell.character) = some (some 'A') := by
  decide

/-- C3 (amended): `EraseDisplay(0)` clears from the cursor (inclusive) to
the end of the screen and `EraseDisplay(1)` from the start of the screen to
the cursor (inclusive), leaving all other cells untouched; the
`EraseDisplay(2)` command itself is a no-op — a full clear is performed by
the separate `ClearScreen` command (which the parser emits for `CSI 2 J`)
and sets every cell to the default. -/
theorem rin_c3_erase_display (b : TerminalBuffer) (hwf : b.grid.WF)
    (hx : b.cursor_x < b.grid.width) (hy : b.cursor_y < b.grid.height) :
    (∃ b0, b.execute_command (Command.EraseDisplay 0) = some b0 ∧
      ∀ x y, x < b.grid.width → y < b.grid.height →
        b0.grid.get x y =
          if b.cursor_y < y ∨ (y = b.cursor_y ∧ b.cursor_x ≤ x)
          then some Cell.default else b.grid.get x y) ∧
    (∃ b1, b.execute_command (Command.EraseDisplay 1) = some b1 ∧
      ∀ x y, x < b.grid.width → y < b.grid.height →
        b1.grid.get x y =
          if y < b.cursor_y ∨ (y = b.cursor_y ∧ x ≤ b.cursor_x)
          then some Cell.default else b.grid.get x y) ∧
    b.execute_command (Command.EraseDisplay 2) = some b ∧
    (∃ b2, b.execute_command Command.ClearScreen = some b2 ∧
      ∀ x y, x < b.grid.width → y < b.grid.height →
        b2.grid.get x y = some Cell.default) := by
  refine ⟨⟨_, rfl, ?_⟩, ⟨_, rfl, ?_⟩, rfl, ⟨_, rfl, ?_⟩⟩
  · -- mode 0
    intro x y hxx hyy
    have hg : ((List.range' (b.cursor_y + 1) (b.grid.height - (b.cursor_y + 1))).flatMap
          fun yy => (List.range b.grid.width).map fun xx => (xx, yy)).foldl
        (fun g p => g.setIgnore p.1 p.2 Cell.default)
        ((List.range' b.cursor_x (b.grid.width - b.cursor_x)).foldl
          (fun g t => g.setIgnore t b.cursor_y Cell.default) b.grid) =
        Grid.clearFold b.grid
          (((List.range' b.cursor_x (b.grid.width - b.cursor_x)).map
              fun t => (t, b.cursor_y)) ++
            ((List.range' (b.cursor_y + 1) (b.grid.height - (b.cursor_y + 1))).flatMap
              fun yy => (List.range b.grid.width).map fun xx => (xx, yy))) := by
      simp only [Grid.clearFold, List.foldl_append, List.foldl_map]
    show (((List.range' (b.cursor_y + 1) (b.grid.height - (b.cursor_y + 1))).flatMap
          fun yy => (List.range b.grid.width).map fun xx => (xx, yy)).foldl
        (fun g p => g.setIgnore p.1 p.2 Cell.default)
        ((List.range' b.cursor_x (b.grid.width - b.cursor_x)).foldl
          (fun g t => g.setIgnore t b.cursor_y Cell.default) b.grid)).get x y = _
    rw [hg]
    have hbnd : ∀ p ∈ (((List.range' b.cursor_x (b.grid.width - b.cursor_x)).map
          fun t => (t, b.cursor_y)) ++
          ((List.range' (b.cursor_y + 1) (b.grid.height - (b.cursor_y + 1))).flatMap
            fun yy => (List.range b.grid.width).map fun xx => (xx, yy))),
        p.1 < b.grid.width ∧ p.2 < b.grid.height := by
      intro p hp
      simp only [List.mem_append, List.mem_map, List.mem_flatMap, List.mem_range'_1,
        List.mem_range] at hp
      rcases hp with ⟨t, ⟨ht1, ht2⟩, rfl⟩ | ⟨yy, ⟨h1, h2⟩, xx, hxx2, rfl⟩
      · exact ⟨by omega, by omega⟩
      · exact ⟨by omega, by omega⟩
    rw [Grid.get_clearFold hwf hbnd]
    have hmem : ((x, y) ∈ (((List.range' b.cursor_x (b.grid.width - b.cursor_x)).map
          fun t => (t, b.cursor_y)) ++
          ((List.range' (b.cursor_y + 1) (b.grid.height - (b.cursor_y + 1))).flatMap
            fun yy => (List.range b.grid.width).map fun xx => (xx, yy)))) ↔
        (b.cursor_y < y ∨ (y = b.cursor_y ∧ b.cursor_x ≤ x)) := by
      simp only [List.mem_append, List.mem_map, List.mem_flatMap, List.mem_range'_1,
        List.mem_range, Prod.mk.injEq]
      constructor
      · rintro (⟨t, ⟨ht1, ht2⟩, rfl, rfl⟩ | ⟨yy, ⟨h1, h2⟩, xx, hxx2, rfl, rfl⟩) <;> omega
      · rintro (hgt | ⟨rfl, hge⟩)
        · exact Or.inr ⟨y, ⟨by omega, by omega⟩, x, by omega, rfl, rfl⟩
        · exact Or.inl ⟨x, ⟨hge, by omega⟩, rfl, rfl⟩
    rw [if_congr hmem rfl rfl]
  · -- mode 1
    intro x y hxx hyy
    have hmin : min b.cursor_x (b.grid.width - 1) = b.cursor_x := by omega
    have hg : ((List.range (min b.cursor_x (b.grid.width - 1) + 1)).foldl
          (fun g t => g.setIgnore t b.cursor_y Cell.default)
          (((List.range b.cursor_y).flatMap
            fun yy => (List.range b.grid.width).map fun xx => (xx, yy)).foldl
            (fun g p => g.setIgnore p.1 p.2 Cell.default) b.grid)) =
        Grid.clearFold b.grid
          (((List.range b.cursor_y).flatMap
              fun yy => (List.range b.grid.width).map fun xx => (xx, yy)) ++
            ((List.range (min b.cursor_x (b.grid.width - 1) + 1)).map
              fun t => (t, b.cursor_y))) := by
      simp only [Grid.clearFold, List.foldl_append, List.foldl_map]
    show ((List.range (min b.cursor_x (b.grid.width - 1) + 1)).foldl
          (fun g t => g.setIgnore t b.cursor_y Cell.default)
          (((List.range b.cursor_y).flatMap
            fun yy => (List.range b.grid.width).map fun xx => (xx, yy)).foldl
            (fun g p => g.setIgnore p.1 p.2 Cell.default) b.grid)).get x y = _
    rw [hg]
    have hbnd : ∀ p ∈ (((List.range b.cursor_y).flatMap
          fun yy => (List.range b.grid.width).map fun xx => (xx, yy)) ++
          ((List.range (min b.cursor_x (b.grid.width - 1) + 1)).map
            fun t => (t, b.cursor_y))),
        p.1 < b.grid.width ∧ p.2 < b.grid.height := by
      intro p hp
      simp only [List.mem_append, List.mem_map, List.mem_flatMap, List.mem_range] at hp
      rcases hp with ⟨yy, h1, xx, hxx2, rfl⟩ | ⟨t, ht1, rfl⟩
      · exact ⟨by omega, by omega⟩
      · exact ⟨by omega, by omega⟩
    rw [Grid.get_clearFold hwf hbnd]
    have hmem : ((x, y) ∈ (((List.range b.cursor_y).flatMap
          fun yy => (List.range b.grid.width).map fun xx => (xx, yy)) ++
          ((List.range (min b.cursor_x (b.grid.width - 1) + 1)).map
            fun t => (t, b.cursor_y)))) ↔
        (y < b.cursor_y ∨ (y = b.cursor_y ∧ x ≤ b.cursor_x)) := by
      simp only [List.mem_append, List.mem_map, List.mem_flatMap, List.mem_range,
        Prod.mk.injEq]
      constructor
      · rintro (⟨yy, h1, xx, hxx2, rfl, rfl⟩ | ⟨t, ht1, rfl, rfl⟩) <;> omega
      · rintro (hlt | ⟨rfl, hle⟩)
        · exact Or.inl ⟨y, by omega, x, by omega, rfl, rfl⟩
        · exact Or.inr ⟨x, by omega, rfl, rfl⟩
    rw [if_congr hmem rfl rfl]
  · -- ClearScreen clears everything
    intro x y hxx hyy
    exact Grid.get_clear hwf hxx hyy

theorem rin_c3_witness :
    ((TerminalBuffer.new 3 2).grid.WF ∧
      (TerminalBuffer.new 3 2).cursor_x < (TerminalBuffer.new 3 2).grid.width ∧
      (TerminalBuffer.new 3 2).cursor_y < (TerminalBuffer.new 3 2).grid.height) ∧
    ((∃ b0, (TerminalBuffer.new 3 2).execute_command (Command.EraseDisplay 0) = some b0 ∧
      ∀ x y, x < (TerminalBuffer.new 3 2).grid.width →
        y < (TerminalBuffer.new 3 2).grid.height →
        b0.grid.get x y =
          if (TerminalBuffer.new 3 2).cursor_y < y ∨
              (y = (TerminalBuffer.new 3 2).cursor_y ∧ (TerminalBuffer.new 3 2).cursor_x ≤ x)
          then some Cell.default else (TerminalBuffer.new 3 2).grid.get x y) ∧
    (∃ b1, (TerminalBuffer.new 3 2).execute_command (Command.EraseDisplay 1) = some b1 ∧
      ∀ x y, x < (TerminalBuffer.new 3 2).grid.width →
        y < (TerminalBuffer.new 3 2).grid.height →
        b1.grid.get x y =
          if y < (TerminalBuffer.new 3 2).cursor_y ∨
              (y = (TerminalBuffer.new 3 2).cursor_y ∧ x ≤ (TerminalBuffer.new 3 2).cursor_x)
          then some Cell.default else (TerminalBuffer.new 3 2).grid.get x y) ∧
    (TerminalBuffer.new 3 2).execute_command (Command.EraseDisplay 2) =
      some (TerminalBuffer.new 3 2) ∧
    (∃ b2, (TerminalBuffer.new 3 2).execute_command Command.ClearScreen = some b2 ∧
      ∀ x y, x < (TerminalBuffer.new 3 2).grid.width →
        y < (TerminalBuffer.new 3 2).grid.height →
        b2.grid.get x y = some Cell.default)) :=
  ⟨⟨by unfold Grid.WF; decide, by decide, by decide⟩,
    rin_c3_erase_display (TerminalBuffer.new 3 2)
      (by unfold Grid.WF; decide) (by decide) (by decide)⟩

/-! ### Frame lemmas for scrollback and alternate-state (C4, C8) -/

namespace TerminalBuffer

theorem scroll_up_alternate (b : TerminalBuffer) (n : Nat) :
    (b.scroll_up n).alternate_state = b.alternate_state := rfl

theorem scroll_down_alternate (b : TerminalBuffer) (n : Nat) :
    (b.scroll_down n).alternate_state = b.alternate_state := rfl

theorem lineFeed_alternate (b : TerminalBuffer) :
    b.lineFeed.alternate_state = b.alternate_state := by
  unfold lineFeed
  dsimp only
  split <;> rfl

theorem write_char_alternate (b : TerminalBuffer) (c : Char) :
    (b.write_char c).alternate_state = b.alternate_state := by
  unfold write_char
  dsimp only
  split
  · split <;> rfl
  · rfl

theorem advance_tab_alternate (b : TerminalBuffer) :
    b.advance_to_next_tab_stop.alternate_state = b.alternate_state := by
  unfold advance_to_next_tab_stop
  dsimp only
  split <;> rfl

theorem enter_alternate_of_some {b : TerminalBuffer} {snap : AlternateState}
    (h : b.alternate_state = some snap) :
    b.enter_alternate_screen = b := by
  unfold enter_alternate_screen
  rw [h]

theorem scroll_up_limit (b : TerminalBuffer) (n : Nat) :
    (b.scroll_up n).scrollback_limit = b.scrollback_limit := rfl

theorem scroll_up_scrollback_le (b : TerminalBuffer) (n : Nat) :
    (b.scroll_up n).scrollback.length ≤ b.scrollback_limit := by
  unfold scroll_up
  dsimp only
  rw [List.length_drop]
  omega

theorem SBInv_scroll_up {b : TerminalBuffer} (hb : b.SBInv) (n : Nat) :
    (b.scroll_up n).SBInv := by
  refine ⟨scroll_up_scrollback_le b n, ?_⟩
  intro s hs
  rw [scroll_up_alternate] at hs
  exact hb.2 s hs

theorem SBInv_lineFeed {b : TerminalBuffer} (hb : b.SBInv) : b.lineFeed.SBInv := by
  unfold lineFeed
  dsimp only
  split
  · refine SBInv_scroll_up ?_ 1
    exact hb
  · exact hb

theorem SBInv_write_char {b : TerminalBuffer} (hb : b.SBInv) (c : Char) :
    (b.write_char c).SBInv := by
  unfold write_char
  dsimp only
  split
  · split
    · refine SBInv_scroll_up ?_ 1
      exact hb
    · exact hb
  · exact hb

theorem SBInv_advance_tab {b : TerminalBuffer} (hb : b.SBInv) :
    b.advance_to_next_tab_stop.SBInv := by
  unfold advance_to_next_tab_stop
  dsimp only
  split <;> exact hb

end TerminalBuffer

namespace TerminalBuffer

theorem SBInv_enter {b : TerminalBuffer} (hb : b.SBInv) :
    b.enter_alternate_screen.SBInv := by
  unfold enter_alternate_screen
  split
  · exact hb
  · refine ⟨by simp, ?_⟩
    intro s hs
    simp only [Option.some.injEq] at hs
    subst hs
    exact hb.1

theorem SBInv_exit {b : TerminalBuffer} (hb : b.SBInv) :
    b.exit_alternate_screen.SBInv := by
  unfold exit_alternate_screen
  split
  next state heq =>
    refine ⟨hb.2 state heq, ?_⟩
    intro s hs
    simp at hs
  next => exact hb

theorem lineFeed_limit (b : TerminalBuffer) :
    b.lineFeed.scrollback_limit = b.scrollback_limit := by
  unfold lineFeed
  dsimp only
  split <;> rfl

theorem write_char_limit (b : TerminalBuffer) (c : Char) :
    (b.write_char c).scrollback_limit = b.scrollback_limit := by
  unfold write_char
  dsimp only
  split
  · split <;> rfl
  · rfl

theorem advance_tab_limit (b : TerminalBuffer) :
    b.advance_to_next_tab_stop.scrollback_limit = b.scrollback_limit := by
  unfold advance_to_next_tab_stop
  dsimp only
  split <;> rfl

theorem enter_limit (b : TerminalBuffer) :
    b.enter_alternate_screen.scrollback_limit = b.scrollback_limit := by
  unfold enter_alternate_screen
  split <;> rfl

theorem exit_limit (b : TerminalBuffer) :
    b.exit_alternate_screen.scrollback_limit = b.scrollback_limit := by
  unfold exit_alternate_screen
  split <;> rfl

/-- Every successful `execute_command` keeps `scrollback_limit` unchanged and
preserves the scrollback-capacity invariant. -/
theorem exec_scrollback_facts {b b' : TerminalBuffer} {cmd : Command}
    (h : b.execute_command cmd = some b') :
    b'.scrollback_limit = b.scrollback_limit ∧ (b.SBInv → b'.SBInv) := by
  cases cmd <;>
    (simp only [execute_command, Option.some.injEq] at h
     repeat' split at h
     all_goals (try simp only [Option.some.injEq] at h)
     all_goals
       first
        | simp at h
        | (subst h
           first
            | exact ⟨rfl, id⟩
            | exact ⟨rfl, fun hb => SBInv_scroll_up hb _⟩
            | exact ⟨lineFeed_limit _, fun hb => SBInv_lineFeed hb⟩
            | exact ⟨write_char_limit _ _, fun hb => SBInv_write_char hb _⟩
            | exact ⟨advance_tab_limit _, fun hb => SBInv_advance_tab hb⟩
            | exact ⟨enter_limit _, fun hb => SBInv_enter hb⟩
            | exact ⟨exit_limit _, fun hb => SBInv_exit hb⟩))

/-- Any command other than `ExitAlternateScreen`, executed while the
alternate screen is active, leaves the saved primary snapshot untouched. -/
theorem exec_alternate_frame {b b' : TerminalBuffer} {cmd : Command}
    {snap : AlternateState}
    (halt : b.alternate_state = some snap)
    (hne : cmd ≠ Command.ExitAlternateScreen)
    (h : b.execute_command cmd = some b') :
    b'.alternate_state = some snap := by
  cases cmd <;>
    first
     | exact absurd rfl hne
     | (simp only [execute_command, Option.some.injEq] at h
        repeat' split at h
        all_goals (try simp only [Option.some.injEq] at h)
        all_goals
          first
           | simp at h
           | (subst h
              first
               | exact halt
               | (rw [lineFeed_alternate]; exact halt)
               | (rw [write_char_alternate]; exact halt)
               | (rw [advance_tab_alternate]; exact halt)
               | (rw [enter_alternate_of_some halt]; exact halt)))

end TerminalBuffer

theorem execSeq_scrollback_facts {C : List Command} {b b' : TerminalBuffer}
    (h : b.execSeq C = some b') :
    b'.scrollback_limit = b.scrollback_limit ∧ (b.SBInv → b'.SBInv) := by
  induction C generalizing b with
  | nil =>
    simp only [TerminalBuffer.execSeq, Option.some.injEq] at h
    subst h
    exact ⟨rfl, id⟩
  | cons c cs ih =>
    simp only [TerminalBuffer.execSeq] at h
    cases he : b.execute_command c with
    | none => rw [he] at h; simp at h
    | some b1 =>
      rw [he] at h
      simp only [Option.some_bind] at h
      have h1 := TerminalBuffer.exec_scrollback_facts he
      have h2 := ih h
      exact ⟨h2.1.trans h1.1, fun hb => h2.2 (h1.2 hb)⟩

theorem execSeq_alternate_frame {C : List Command} {b b' : TerminalBuffer}
    {snap : AlternateState}
    (halt : b.alternate_state = some snap)
    (hC : Command.ExitAlternateScreen ∉ C)
    (h : b.execSeq C = some b') :
    b'.alternate_state = some snap := by
  induction C generalizing b with
  | nil =>
    simp only [TerminalBuffer.execSeq, Option.some.injEq] at h
    subst h
    exact halt
  | cons c cs ih =>
    simp only [TerminalBuffer.execSeq] at h
    cases he : b.execute_command c with
    | none => rw [he] at h; simp at h
    | some b1 =>
      rw [he] at h
      simp only [Option.some_bind] at h
      have hne : c ≠ Command.ExitAlternateScreen := by
        intro hcon
        exact hC (hcon ▸ List.mem_cons_self ..)
      have h1 := TerminalBuffer.exec_alternate_frame halt hne he
      exact ih h1 (fun hmem => hC (List.mem_cons_of_mem _ hmem)) h

/-! ### Scrollback within the alternate screen (C4) -/

/-- C4: contrary to the claim, a scroll-up executed inside the alternate
screen does push a row onto the (alternate) scrollback: after
`EnterAlternateScreen` on a 1×1 buffer, `ScrollUp(1)` raises
`scrollback_len()` from 0 to 1. -/
theorem rin_c4_counterexample :
    (((TerminalBuffer.new 1 1).execute_command Command.EnterAlternateScreen).bind
      (fun b => b.execute_command (Command.ScrollUp 1))).map
      TerminalBuffer.scrollback_len = some 1 ∧
    ((TerminalBuffer.new 1 1).execute_command Command.EnterAlternateScreen).map
      TerminalBuffer.scrollback_len = some 0 := by
  exact ⟨by decide, by decide⟩

/-- C4 (amended): commands executed inside the alternate screen may feed the
alternate screen's own scrollback (observable through `scrollback_len`), but
the primary snapshot saved by `EnterAlternateScreen` — its scrollback
included — is untouched by every command sequence that contains no
`ExitAlternateScreen`, and `ExitAlternateScreen` restores exactly the saved
primary scrollback. -/
theorem rin_c4_alt_preserves_primary_scrollback (b : TerminalBuffer)
    (snap : AlternateState) (halt : b.alternate_state = some snap)
    (C : List Command) (hC : Command.ExitAlternateScreen ∉ C)
    (b' : TerminalBuffer) (h : b.execSeq C = some b') :
    b'.alternate_state = some snap ∧
    b'.exit_alternate_screen.scrollback = snap.scrollback ∧
    b'.exit_alternate_screen.alternate_state = none := by
  have hmain := execSeq_alternate_frame halt hC h
  refine ⟨hmain, ?_, ?_⟩ <;>
    simp [TerminalBuffer.exit_alternate_screen, hmain]

theorem rin_c4_witness :
    ∃ snap, (TerminalBuffer.new 1 1).enter_alternate_screen.alternate_state = some snap ∧
      Command.ExitAlternateScreen ∉
        [Command.Print 'x', Command.ScrollUp 1, Command.Execute 10] ∧
      ∃ b', (TerminalBuffer.new 1 1).enter_alternate_screen.execSeq
          [Command.Print 'x', Command.ScrollUp 1, Command.Execute 10] = some b' ∧
        b'.alternate_state = some snap ∧
        b'.exit_alternate_screen.scrollback = snap.scrollback ∧
        b'.exit_alternate_screen.alternate_state = none := by
  refine ⟨_, rfl, by decide, ?_⟩
  refine ⟨_, rfl, ?_⟩
  exact rin_c4_alt_preserves_primary_scrollback
    (TerminalBuffer.new 1 1).enter_alternate_screen _ rfl
    [Command.Print 'x', Command.ScrollUp 1, Command.Execute 10] (by decide) _ rfl

/-! ### Scrollback capacity (C8) -/

/-- C8: starting from the initial state, after every successfully executed
command sequence the scrollback length never exceeds `scrollback_limit`,
which stays at the 10,000 default; eviction inside `scroll_up` drops the
oldest entries from the front of the deque. -/
theorem rin_c8_scrollback_bounded (w h : Nat) (C : List Command)
    (b' : TerminalBuffer) (hrun : (TerminalBuffer.new w h).execSeq C = some b') :
    b'.scrollback.length ≤ b'.scrollback_limit ∧
    b'.scrollback_limit = DEFAULT_SCROLLBACK_LIMIT := by
  have hfacts := execSeq_scrollback_facts hrun
  have hinv : (TerminalBuffer.new w h).SBInv := by
    refine ⟨by simp [TerminalBuffer.new, DEFAULT_SCROLLBACK_LIMIT], ?_⟩
    intro s hs
    simp [TerminalBuffer.new] at hs
  exact ⟨(hfacts.2 hinv).1, hfacts.1⟩

theorem rin_c8_witness :
    ∃ b', (TerminalBuffer.new 2 1).execSeq
        [Command.Print 'a', Command.Execute 10, Command.ScrollUp 1] = some b' ∧
      b'.scrollback.length ≤ b'.scrollback_limit ∧
      b'.scrollback_limit = DEFAULT_SCROLLBACK_LIMIT := by
  refine ⟨_, rfl, ?_⟩
  exact rin_c8_scrollback_bounded 2 1
    [Command.Print 'a', Command.Execute 10, Command.ScrollUp 1] _ rfl

end Rin
